import Mathlib

/-!
A verification development for `density_and_bearing_cap.py`, a regolith
compression simulator.  The program computes a per-centimeter depth profile
(density, bearing capacity) and then runs a compression loop: at each depth it
compares the soil's bearing capacity with the downward pressure transmitted by
a vehicle wheel; overloaded layers collapse to grain density and the force
footprint widens before the next depth is processed.

Real-valued quantities of the source are modelled as rationals (`ℚ`).  The
force-spread factor (`math.tan(math.radians(5))` in the source) is kept as a
parameter of the force model, so every statement is proved for all rational
spread factors.
-/

namespace Regolith

/-- Constant `min_density` of the source (line 37). -/
def min_density : ℚ := 1101/1000

/-- Constant `max_density` of the source (line 38). -/
def max_density : ℚ := 1818/1000

/-- Constant `lunar_gravity` of the source (line 77). -/
def lunar_gravity : ℚ := 16/10

/-- Constant `grain_density` of the source (line 90): the density to which each
overloaded layer collapses. -/
def grain_density : ℚ := 2

/-- Constant `min_bearing_cap` of the source (line 100). -/
def min_bearing_cap : ℚ := 3/100

/-- Constant `bearing_per_cm` of the source (line 101): `65.0 / 30`. -/
def bearing_per_cm : ℚ := 65/30

/-- Constant `max_depth` of the source (line 119). -/
def max_depth : ℕ := 30

/-- The density component of `density_and_bearing_cap_at_depth` (line 105):
`1.89 * (depth + 1.69) / (depth + 2.9)`. -/
def density_at (depth : ℕ) : ℚ :=
  189/100 * ((depth : ℚ) + 169/100) / ((depth : ℚ) + 29/10)

/-- The bearing-capacity component of `density_and_bearing_cap_at_depth`
(line 106): `min_bearing_cap + depth * bearing_per_cm`. -/
def bearing_cap_at (depth : ℕ) : ℚ :=
  min_bearing_cap + (depth : ℚ) * bearing_per_cm

/-- One record of the `compressed_layers` list (line 190): the tuple
`(support_footprint_edge, new_layer_thickness, downward_force)`. -/
structure CompressedLayer where
  footprintEdgeLength : ℚ
  compressedThickness : ℚ
  appliedPressure : ℚ
  deriving Repr, DecidableEq

/-- The derived force parameters used by the compression loop:
`force_per_wheel` (line 79) and `force_spread` (line 85). -/
structure ForceModel where
  forcePerWheel : ℚ
  spreadFactor : ℚ
  deriving Repr, DecidableEq

/-- The mutable state of the compression loop (lines 152-156 initialise it). -/
structure SimState where
  total_compression : ℚ
  first_uncompressed_layer : ℕ
  max_pressure : ℚ
  min_pressure : ℚ
  support_footprint_edge : ℚ
  compressed_layers : List CompressedLayer
  deriving Repr, DecidableEq

/-- Line 159: `downward_force = force_per_wheel / support_footprint_edge ** 2`
(line 159), over the current footprint of the state. -/
def downwardForceOf (fm : ForceModel) (s : SimState) : ℚ :=
  fm.forcePerWheel / s.support_footprint_edge ^ 2

/-- Lines 164-167: record the running maximum and minimum pressure. -/
def recordPressure (p : ℚ) (s : SimState) : SimState :=
  { s with
    max_pressure := if p > s.max_pressure then p else s.max_pressure
    min_pressure := if p < s.min_pressure then p else s.min_pressure }

/-- The collapse branch of a loop iteration (lines 184-197): the layer
collapses to grain density, total compression accumulates, the layer record is
appended, and the footprint edge grows by `2 * force_spread`. -/
def collapseState (fm : ForceModel) (dens : ℕ → ℚ) (depth : ℕ) (s : SimState) :
    SimState :=
  let f := downwardForceOf fm s
  let s1 := recordPressure f s
  let t := dens depth / grain_density
  { s1 with
    total_compression := s1.total_compression + (1 - t)
    compressed_layers :=
      s1.compressed_layers ++ [⟨s.support_footprint_edge, t, f⟩]
    support_footprint_edge := s.support_footprint_edge + 2 * fm.spreadFactor }

/-- The stop branch of a loop iteration (lines 174-180): the layer supports the
load, `first_uncompressed_layer` is set to the current depth and the loop
breaks. -/
def stopState (fm : ForceModel) (depth : ℕ) (s : SimState) : SimState :=
  { recordPressure (downwardForceOf fm s) s with
    first_uncompressed_layer := depth }

/-- The compression loop (lines 158-197): `for depth in range(max_depth)` with
an early `break` once `support >= downward_force`.  The first argument is the
number of remaining iterations, the second the current depth. -/
def loopAux (fm : ForceModel) (bc dens : ℕ → ℚ) :
    ℕ → ℕ → SimState → SimState
  | 0, _, s => s
  | n + 1, depth, s =>
    if bc depth ≥ downwardForceOf fm s then
      stopState fm depth s
    else
      loopAux fm bc dens n (depth + 1) (collapseState fm dens depth s)

/-- The initial state of the compression loop (lines 152-156). -/
def initState (wheelWidth : ℚ) : SimState :=
  { total_compression := 0
    first_uncompressed_layer := 0
    max_pressure := 0
    min_pressure := 10000
    support_footprint_edge := wheelWidth
    compressed_layers := [] }

/-- The whole compression simulation: scan depths from `0` up to
`maxDepth - 1`, starting from the initial state. -/
def runSim (fm : ForceModel) (bc dens : ℕ → ℚ) (maxDepth : ℕ)
    (wheelWidth : ℚ) : SimState :=
  loopAux fm bc dens maxDepth 0 (initState wheelWidth)

/-- PP&L scenario constants (lines 65-70). -/
def ppl_mass : ℚ := 6000

/-- Constant `wheel_width` of the PP&L scenario (line 69). -/
def ppl_wheel_width : ℚ := 10

/-- Constant `n_wheels` of the PP&L scenario (line 70). -/
def ppl_n_wheels : ℚ := 4

/-- Value `force_per_wheel` for the PP&L scenario (lines 78-79):
`mass_of_vehicle * lunar_gravity / n_wheels`. -/
def ppl_force_per_wheel : ℚ := ppl_mass * lunar_gravity / ppl_n_wheels

/-- A vehicle scenario (lines 59-70): name, mass, wheel width, wheel count. -/
structure VehicleConfig where
  vehicle_name : String
  mass_of_vehicle : ℚ
  wheel_width : ℚ
  n_wheels : ℚ
  deriving Repr, DecidableEq

/-- The scenario-selection chain (lines 59-73): the two recognized scenario
names and their configurations; any other name falls to the fatal branch. -/
def selectScenario (scenario : String) : Option VehicleConfig :=
  if scenario = "Moon_Buggy" then some ⟨"Apollo Rover", 660, 15, 4⟩
  else if scenario = "PP&L" then some ⟨"PP&L Bulldozer", 6000, 10, 4⟩
  else none

/-- An abnormal process termination: the diagnostic printed and the process
exit status. -/
structure FatalExit where
  diagnostic : String
  exitCode : ℕ
  deriving Repr, DecidableEq

/-- The top of the program, up to the end of the compression loop: select the
scenario, then (only on success) derive the force model and run the
simulation.  On an unrecognized name the source prints `"Bad scenario!"` and
terminates with exit status 1 (line 72-73) before the profile, the loop or any
rendering code runs, so no image is written.  (In the source the `sys.exit(1)`
call raises an uncaught `NameError` because `sys` is never imported; either
way the interpreter stops there with exit status 1.) -/
def runProgram (σ : ℚ) (scenario : String) : Except FatalExit SimState :=
  match selectScenario scenario with
  | some v =>
      .ok (runSim ⟨v.mass_of_vehicle * lunar_gravity / v.n_wheels, σ⟩
        bearing_cap_at density_at max_depth v.wheel_width)
  | none => .error ⟨"Bad scenario!", 1⟩

/-- The sequence of `downward_force` values the loop computes (line 159), in
order: one per processed depth, including the final supported depth when the
loop stops early.  Mirrors the control flow of `loopAux`, carrying only the
footprint edge. -/
def pressureTrace (fm : ForceModel) (bc : ℕ → ℚ) :
    ℕ → ℕ → ℚ → List ℚ
  | 0, _, _ => []
  | n + 1, depth, edge =>
    if bc depth ≥ fm.forcePerWheel / edge ^ 2 then
      [fm.forcePerWheel / edge ^ 2]
    else
      fm.forcePerWheel / edge ^ 2 ::
        pressureTrace fm bc n (depth + 1) (edge + 2 * fm.spreadFactor)

/-! ### Basic lemmas about the loop -/

lemma stopState_compressed_layers (fm : ForceModel) (depth : ℕ) (s : SimState) :
    (stopState fm depth s).compressed_layers = s.compressed_layers := rfl

lemma stopState_first_uncompressed (fm : ForceModel) (depth : ℕ) (s : SimState) :
    (stopState fm depth s).first_uncompressed_layer = depth := rfl

lemma collapseState_compressed_layers (fm : ForceModel) (dens : ℕ → ℚ)
    (depth : ℕ) (s : SimState) :
    (collapseState fm dens depth s).compressed_layers
      = s.compressed_layers ++
        [⟨s.support_footprint_edge, dens depth / grain_density,
          fm.forcePerWheel / s.support_footprint_edge ^ 2⟩] := rfl

lemma collapseState_edge (fm : ForceModel) (dens : ℕ → ℚ) (depth : ℕ)
    (s : SimState) :
    (collapseState fm dens depth s).support_footprint_edge
      = s.support_footprint_edge + 2 * fm.spreadFactor := rfl

lemma collapseState_total (fm : ForceModel) (dens : ℕ → ℚ) (depth : ℕ)
    (s : SimState) :
    (collapseState fm dens depth s).total_compression
      = s.total_compression + (1 - dens depth / grain_density) := rfl

lemma loopAux_succ_of_supported (fm : ForceModel) (bc dens : ℕ → ℚ)
    (n depth : ℕ) (s : SimState) (h : bc depth ≥ downwardForceOf fm s) :
    loopAux fm bc dens (n + 1) depth s = stopState fm depth s := by
  simp [loopAux, h]

lemma loopAux_succ_of_collapsed (fm : ForceModel) (bc dens : ℕ → ℚ)
    (n depth : ℕ) (s : SimState) (h : ¬ bc depth ≥ downwardForceOf fm s) :
    loopAux fm bc dens (n + 1) depth s
      = loopAux fm bc dens n (depth + 1) (collapseState fm dens depth s) := by
  simp [loopAux, h]

/-- Layers already recorded are never removed: the layer list of the input
state is a prefix of the layer list of the output state. -/
lemma loopAux_layers_isPrefix (fm : ForceModel) (bc dens : ℕ → ℚ) :
    ∀ (n depth : ℕ) (s : SimState),
      List.IsPrefix s.compressed_layers
        (loopAux fm bc dens n depth s).compressed_layers := by
  intro n
  induction n with
  | zero => intro depth s; exact List.prefix_refl _
  | succ n ih =>
    intro depth s
    by_cases h : bc depth ≥ downwardForceOf fm s
    · rw [loopAux_succ_of_supported fm bc dens n depth s h,
        stopState_compressed_layers]
    · rw [loopAux_succ_of_collapsed fm bc dens n depth s h]
      refine List.IsPrefix.trans ?_ (ih (depth + 1) (collapseState fm dens depth s))
      rw [collapseState_compressed_layers]
      exact List.prefix_append _ _

/-- The accumulation invariant: if the running total matches the layer list,
it still does after any number of further iterations. -/
lemma loopAux_total_invariant (fm : ForceModel) (bc dens : ℕ → ℚ) :
    ∀ (n depth : ℕ) (s : SimState),
      s.total_compression
          = (s.compressed_layers.map fun l => 1 - l.compressedThickness).sum →
      (loopAux fm bc dens n depth s).total_compression
        = ((loopAux fm bc dens n depth s).compressed_layers.map
            fun l => 1 - l.compressedThickness).sum := by
  intro n
  induction n with
  | zero => intro depth s hs; exact hs
  | succ n ih =>
    intro depth s hs
    by_cases h : bc depth ≥ downwardForceOf fm s
    · rw [loopAux_succ_of_supported fm bc dens n depth s h]
      exact hs
    · rw [loopAux_succ_of_collapsed fm bc dens n depth s h]
      refine ih (depth + 1) (collapseState fm dens depth s) ?_
      rw [collapseState_total, collapseState_compressed_layers, List.map_append,
        List.sum_append, hs]
      simp

/-- Every layer present after running the loop was either present before, or
was appended with thickness `dens d / grain_density` for some depth `d`. -/
lemma loopAux_mem_layers (fm : ForceModel) (bc dens : ℕ → ℚ) :
    ∀ (n depth : ℕ) (s : SimState),
      ∀ l ∈ (loopAux fm bc dens n depth s).compressed_layers,
        l ∈ s.compressed_layers ∨
          ∃ d : ℕ, l.compressedThickness = dens d / grain_density := by
  intro n
  induction n with
  | zero => intro depth s l hl; exact Or.inl hl
  | succ n ih =>
    intro depth s l hl
    by_cases h : bc depth ≥ downwardForceOf fm s
    · rw [loopAux_succ_of_supported fm bc dens n depth s h,
        stopState_compressed_layers] at hl
      exact Or.inl hl
    · rw [loopAux_succ_of_collapsed fm bc dens n depth s h] at hl
      rcases ih (depth + 1) (collapseState fm dens depth s) l hl with hmem | hex
      · rw [collapseState_compressed_layers, List.mem_append] at hmem
        rcases hmem with hmem | hmem
        · exact Or.inl hmem
        · refine Or.inr ⟨depth, ?_⟩
          rw [List.mem_singleton] at hmem
          rw [hmem]
      · exact Or.inr hex

lemma density_at_nonneg (d : ℕ) : 0 ≤ density_at d := by
  unfold density_at
  positivity

lemma density_at_lt (d : ℕ) : density_at d < 189/100 := by
  unfold density_at
  rw [div_lt_iff₀ (by positivity)]
  have : (0 : ℚ) ≤ (d : ℚ) := Nat.cast_nonneg d
  nlinarith

/-- The footprint edge never shrinks when the spread factor is nonnegative. -/
lemma loopAux_edge_mono (fm : ForceModel) (bc dens : ℕ → ℚ)
    (hσ : 0 ≤ fm.spreadFactor) :
    ∀ (n depth : ℕ) (s : SimState),
      s.support_footprint_edge
        ≤ (loopAux fm bc dens n depth s).support_footprint_edge := by
  intro n
  induction n with
  | zero => intro depth s; exact le_refl _
  | succ n ih =>
    intro depth s
    by_cases h : bc depth ≥ downwardForceOf fm s
    · rw [loopAux_succ_of_supported fm bc dens n depth s h]
      exact le_refl _
    · rw [loopAux_succ_of_collapsed fm bc dens n depth s h]
      refine le_trans ?_ (ih (depth + 1) (collapseState fm dens depth s))
      rw [collapseState_edge]
      linarith

/-! ### Claim theorems -/

/-- C1: the compression loop, at the first depth where the bearing capacity is
at least the downward force (with `≥`, so exact equality does not collapse),
sets `first_uncompressed_layer` to that depth, appends no layer for that
depth, and terminates: the result does not depend on how much of the depth
range is left, so no deeper depth is processed. -/
theorem loop_stops_at_first_supported_depth (fm : ForceModel)
    (bc dens : ℕ → ℚ) (n depth : ℕ) (s : SimState)
    (h : bc depth ≥ downwardForceOf fm s) :
    (loopAux fm bc dens (n + 1) depth s).first_uncompressed_layer = depth ∧
    (loopAux fm bc dens (n + 1) depth s).compressed_layers
      = s.compressed_layers ∧
    loopAux fm bc dens (n + 1) depth s = loopAux fm bc dens 1 depth s := by
  rw [loopAux_succ_of_supported fm bc dens n depth s h,
    loopAux_succ_of_supported fm bc dens 0 depth s h]
  exact ⟨rfl, rfl, rfl⟩

/-- Witness for C1 at a concrete supported depth: capacity `100` exceeds the
downward force `24` of the PP&L wheel, so the loop stops at depth `0`. -/
theorem loop_stops_at_first_supported_depth_witness :
    (fun _ : ℕ => (100 : ℚ)) 0 ≥ downwardForceOf ⟨2400, 0⟩ (initState 10) ∧
    (loopAux ⟨2400, 0⟩ (fun _ => (100 : ℚ)) density_at 1 0
        (initState 10)).first_uncompressed_layer = 0 := by
  have h : (fun _ : ℕ => (100 : ℚ)) 0 ≥ downwardForceOf ⟨2400, 0⟩ (initState 10) := by
    norm_num [downwardForceOf, initState]
  exact ⟨h, (loop_stops_at_first_supported_depth ⟨2400, 0⟩ (fun _ => (100 : ℚ))
    density_at 0 0 (initState 10) h).1⟩

/-- C2: at every depth that collapses (support strictly below the downward
force), the loop appends exactly one layer record whose thickness is
`density(depth) / grain_density`, whose applied pressure is
`force_per_wheel / support_footprint_edge ** 2` over the current footprint
edge, and whose footprint edge length is that current edge. -/
theorem collapse_appends_one_layer (fm : ForceModel) (bc dens : ℕ → ℚ)
    (n depth : ℕ) (s : SimState)
    (h : bc depth < downwardForceOf fm s) :
    loopAux fm bc dens (n + 1) depth s
      = loopAux fm bc dens n (depth + 1) (collapseState fm dens depth s) ∧
    (collapseState fm dens depth s).compressed_layers
      = s.compressed_layers ++
        [⟨s.support_footprint_edge, dens depth / grain_density,
          fm.forcePerWheel / s.support_footprint_edge ^ 2⟩] := by
  exact ⟨loopAux_succ_of_collapsed fm bc dens n depth s (not_le.mpr h),
    collapseState_compressed_layers fm dens depth s⟩

/-- Witness for C2 at depth `0` of the PP&L run: capacity `0.03` is below the
downward force `24`, and exactly the layer `(10, density(0)/2, 24)` is
appended. -/
theorem collapse_appends_one_layer_witness :
    bearing_cap_at 0 < downwardForceOf ⟨2400, 0⟩ (initState 10) ∧
    (collapseState ⟨2400, 0⟩ density_at 0 (initState 10)).compressed_layers
      = [⟨10, density_at 0 / grain_density, 2400 / 10 ^ 2⟩] := by
  have h : bearing_cap_at 0 < downwardForceOf ⟨2400, 0⟩ (initState 10) := by
    norm_num [bearing_cap_at, downwardForceOf, initState, min_bearing_cap,
      bearing_per_cm]
  exact ⟨h, (collapse_appends_one_layer ⟨2400, 0⟩ bearing_cap_at density_at 0 0
    (initState 10) h).2⟩

/-- C3: after the compression loop finishes, `total_compression` is exactly
the sum of `1 - compressedThickness` over the appended layers, for every
force model, profile, depth range and wheel width. -/
theorem total_compression_eq_sum (fm : ForceModel) (bc dens : ℕ → ℚ)
    (maxDepth : ℕ) (w : ℚ) :
    (runSim fm bc dens maxDepth w).total_compression
      = ((runSim fm bc dens maxDepth w).compressed_layers.map
          fun l => 1 - l.compressedThickness).sum := by
  exact loopAux_total_invariant fm bc dens maxDepth 0 (initState w) (by simp [initState])

/-- C4: with the program's density curve, every appended layer has a
compressed thickness in `[0, 1]`, because `density(depth)` stays strictly
below `grain_density = 2` at every depth. -/
theorem compressed_thickness_unit_interval (fm : ForceModel) (maxDepth : ℕ)
    (w : ℚ) :
    (∀ l ∈ (runSim fm bearing_cap_at density_at maxDepth w).compressed_layers,
        0 ≤ l.compressedThickness ∧ l.compressedThickness ≤ 1) ∧
    ∀ d : ℕ, density_at d < grain_density := by
  have hlt : ∀ d : ℕ, density_at d < grain_density := by
    intro d
    have := density_at_lt d
    unfold grain_density
    linarith
  refine ⟨?_, hlt⟩
  intro l hl
  rcases loopAux_mem_layers fm bearing_cap_at density_at maxDepth 0
      (initState w) l hl with hmem | ⟨d, hd⟩
  · simp [initState] at hmem
  · have h0 := density_at_nonneg d
    have h2 := hlt d
    unfold grain_density at *
    constructor
    · rw [hd]; positivity
    · rw [hd]
      rw [div_le_one (by norm_num)]
      linarith

/-- Witness for C4: the single layer of a one-depth PP&L run has thickness
`31941/58000`, which lies in `[0, 1]`. -/
theorem compressed_thickness_unit_interval_witness :
    (⟨10, 31941/58000, 24⟩ : CompressedLayer)
        ∈ (runSim ⟨2400, 0⟩ bearing_cap_at density_at 1 10).compressed_layers ∧
    (0 : ℚ) ≤ 31941/58000 ∧ (31941 : ℚ)/58000 ≤ 1 := by
  have hm : (⟨10, 31941/58000, 24⟩ : CompressedLayer)
      ∈ (runSim ⟨2400, 0⟩ bearing_cap_at density_at 1 10).compressed_layers := by
    norm_num [runSim, loopAux, initState, downwardForceOf, stopState,
      collapseState, recordPressure, bearing_cap_at, density_at,
      min_bearing_cap, bearing_per_cm, grain_density]
  exact ⟨hm, (compressed_thickness_unit_interval ⟨2400, 0⟩ 1 10).1 _ hm⟩

/-- C5: the footprint edge never shrinks across iterations when the spread
factor is nonnegative; each collapsed layer grows it by exactly
`2 * spreadFactor`, hence strictly when the spread factor is positive. -/
theorem footprint_edge_growth (fm : ForceModel) (bc dens : ℕ → ℚ)
    (n depth : ℕ) (s : SimState) :
    (0 ≤ fm.spreadFactor →
        s.support_footprint_edge
          ≤ (loopAux fm bc dens n depth s).support_footprint_edge) ∧
    (collapseState fm dens depth s).support_footprint_edge
      = s.support_footprint_edge + 2 * fm.spreadFactor ∧
    (0 < fm.spreadFactor →
        s.support_footprint_edge
          < (collapseState fm dens depth s).support_footprint_edge) := by
  refine ⟨fun hσ => loopAux_edge_mono fm bc dens hσ n depth s,
    collapseState_edge fm dens depth s, fun hσ => ?_⟩
  rw [collapseState_edge]
  linarith

/-- Witness for C5 with spread factor `7/80`: after a collapse at the PP&L
initial state the edge is exactly `10 + 2 * (7/80)`, strictly larger than
`10`, and the full run's final edge is at least `10`. -/
theorem footprint_edge_growth_witness :
    (0 : ℚ) ≤ (7 : ℚ)/80 ∧ (0 : ℚ) < (7 : ℚ)/80 ∧
    (initState 10).support_footprint_edge
      ≤ (loopAux ⟨2400, 7/80⟩ bearing_cap_at density_at 30 0
          (initState 10)).support_footprint_edge ∧
    (collapseState ⟨2400, 7/80⟩ density_at 0 (initState 10)).support_footprint_edge
      = (initState 10).support_footprint_edge + 2 * (7/80) ∧
    (initState 10).support_footprint_edge
      < (collapseState ⟨2400, 7/80⟩ density_at 0 (initState 10)).support_footprint_edge := by
  have h := footprint_edge_growth ⟨2400, 7/80⟩ bearing_cap_at density_at 30 0
    (initState 10)
  exact ⟨by norm_num, by norm_num, h.1 (by norm_num), h.2.1, h.2.2 (by norm_num)⟩

/-- If a list starting with `a` is a prefix of `l`, then `a` is the head of
`l`. -/
lemma head?_of_isPrefix {α : Type} {a : α} {t l : List α}
    (h : List.IsPrefix (a :: t) l) : l.head? = some a := by
  obtain ⟨r, hr⟩ := h
  rw [← hr]
  rfl

/-- C6 counterexample: on a 1-entry profile whose depth-0 support (`0.03`) is
below the downward force (`24`), the simulation does not fail: it returns a
result with `first_uncompressed_layer = 0` and one collapsed layer.  The
source has no `DegenerateProfileError` (or any error path) in the loop. -/
theorem shallow_profile_counterexample :
    bearing_cap_at 0 < downwardForceOf ⟨2400, 0⟩ (initState 10) ∧
    (runSim ⟨2400, 0⟩ bearing_cap_at density_at 1 10).first_uncompressed_layer
      = 0 ∧
    (runSim ⟨2400, 0⟩ bearing_cap_at density_at 1 10).compressed_layers.length
      = 1 := by
  norm_num [runSim, loopAux, initState, downwardForceOf, stopState,
    collapseState, recordPressure, bearing_cap_at, density_at,
    min_bearing_cap, bearing_per_cm, grain_density]

/-- C6 amended: on a 1-entry profile whose depth-0 support is below the
downward force, the loop collapses depth 0, exhausts the profile without any
error, and leaves `first_uncompressed_layer` at its initial value `0`. -/
theorem shallow_profile_returns_depth_zero (fm : ForceModel) (w : ℚ)
    (h : bearing_cap_at 0 < fm.forcePerWheel / w ^ 2) :
    (runSim fm bearing_cap_at density_at 1 w).first_uncompressed_layer = 0 ∧
    (runSim fm bearing_cap_at density_at 1 w).compressed_layers.length = 1 := by
  have hc : ¬ bearing_cap_at 0 ≥ downwardForceOf fm (initState w) :=
    not_le.mpr h
  unfold runSim
  rw [loopAux_succ_of_collapsed fm bearing_cap_at density_at 0 0 (initState w) hc]
  simp [loopAux, collapseState, recordPressure, initState]

/-- Witness for the amended C6 at the PP&L force model with zero spread. -/
theorem shallow_profile_returns_depth_zero_witness :
    bearing_cap_at 0 < (2400 : ℚ) / 10 ^ 2 ∧
    (runSim ⟨2400, 0⟩ bearing_cap_at density_at 1 10).first_uncompressed_layer
      = 0 := by
  have h : bearing_cap_at 0 < (2400 : ℚ) / 10 ^ 2 := by
    norm_num [bearing_cap_at, min_bearing_cap, bearing_per_cm]
  exact ⟨h, (shallow_profile_returns_depth_zero ⟨2400, 0⟩ 10 h).1⟩

/-- C7: the PP&L scenario yields `force_per_wheel = 6000 * 1.6 / 4 = 2400`,
a depth-0 downward force of `2400 / 10² = 24`, a depth-0 bearing capacity of
`0.03 < 24`, so depth 0 collapses (the first recorded layer carries pressure
`24` over the 10 cm footprint); and, for any spread factor, the loop keeps
collapsing exactly until the bearing capacity reaches the current downward
force. -/
theorem ppl_scenario_values (σ : ℚ) :
    ppl_force_per_wheel = 2400 ∧
    downwardForceOf ⟨ppl_force_per_wheel, σ⟩ (initState ppl_wheel_width) = 24 ∧
    bearing_cap_at 0 = 3/100 ∧
    bearing_cap_at 0 < 24 ∧
    (runSim ⟨ppl_force_per_wheel, σ⟩ bearing_cap_at density_at max_depth
        ppl_wheel_width).compressed_layers.head?
      = some ⟨10, density_at 0 / grain_density, 24⟩ ∧
    (∀ (n d : ℕ) (s : SimState),
        bearing_cap_at d < downwardForceOf ⟨ppl_force_per_wheel, σ⟩ s →
        loopAux ⟨ppl_force_per_wheel, σ⟩ bearing_cap_at density_at (n + 1) d s
          = loopAux ⟨ppl_force_per_wheel, σ⟩ bearing_cap_at density_at n (d + 1)
              (collapseState ⟨ppl_force_per_wheel, σ⟩ density_at d s)) ∧
    (∀ (n d : ℕ) (s : SimState),
        bearing_cap_at d ≥ downwardForceOf ⟨ppl_force_per_wheel, σ⟩ s →
        loopAux ⟨ppl_force_per_wheel, σ⟩ bearing_cap_at density_at (n + 1) d s
          = stopState ⟨ppl_force_per_wheel, σ⟩ d s) := by
  have h1 : ppl_force_per_wheel = 2400 := by
    norm_num [ppl_force_per_wheel, ppl_mass, lunar_gravity, ppl_n_wheels]
  have h2 : downwardForceOf ⟨ppl_force_per_wheel, σ⟩ (initState ppl_wheel_width)
      = 24 := by
    rw [downwardForceOf, h1]
    norm_num [initState, ppl_wheel_width]
  have h3 : bearing_cap_at 0 = 3/100 := by
    norm_num [bearing_cap_at, min_bearing_cap, bearing_per_cm]
  have h4 : bearing_cap_at 0 < 24 := by rw [h3]; norm_num
  refine ⟨h1, h2, h3, h4, ?_, ?_, ?_⟩
  · have hc : ¬ bearing_cap_at 0
        ≥ downwardForceOf ⟨ppl_force_per_wheel, σ⟩ (initState ppl_wheel_width) := by
      rw [h2]
      exact not_le.mpr h4
    unfold runSim max_depth
    rw [loopAux_succ_of_collapsed _ bearing_cap_at density_at 29 0
      (initState ppl_wheel_width) hc]
    have hpre := loopAux_layers_isPrefix ⟨ppl_force_per_wheel, σ⟩ bearing_cap_at
      density_at 29 1
      (collapseState ⟨ppl_force_per_wheel, σ⟩ density_at 0 (initState ppl_wheel_width))
    rw [collapseState_compressed_layers] at hpre
    have hlayer : (⟨(initState ppl_wheel_width).support_footprint_edge,
        density_at 0 / grain_density,
        ppl_force_per_wheel
          / (initState ppl_wheel_width).support_footprint_edge ^ 2⟩ : CompressedLayer)
        = ⟨10, density_at 0 / grain_density, 24⟩ := by
      rw [h1]
      norm_num [initState, ppl_wheel_width]
    rw [hlayer] at hpre
    exact head?_of_isPrefix hpre
  · intro n d s h
    exact loopAux_succ_of_collapsed _ bearing_cap_at density_at n d s (not_le.mpr h)
  · intro n d s h
    exact loopAux_succ_of_supported _ bearing_cap_at density_at n d s h

/-- Witness for C7, projecting the force-per-wheel value at spread factor 0. -/
theorem ppl_scenario_values_witness : ppl_force_per_wheel = 2400 :=
  (ppl_scenario_values 0).1

/-- The density curve is monotone in depth (in fact for every natural depth,
not only up to 29). -/
lemma density_at_mono {d e : ℕ} (h : d ≤ e) : density_at d ≤ density_at e := by
  unfold density_at
  have hde : (d : ℚ) ≤ (e : ℚ) := Nat.cast_le.mpr h
  have hd0 : (0 : ℚ) ≤ (d : ℚ) := Nat.cast_nonneg d
  have he0 : (0 : ℚ) ≤ (e : ℚ) := Nat.cast_nonneg e
  rw [div_le_div_iff₀ (by positivity) (by positivity)]
  nlinarith

/-- C8: over depths 0 to 29, the density curve
`1.89 * (depth + 1.69) / (depth + 2.9)` is monotonically non-decreasing and
stays within `[1.10, 1.82]` g/cm³. -/
theorem density_monotone_bounded (d : ℕ) (hd : d ≤ 29) :
    density_at d ≤ density_at (d + 1) ∧
    11/10 ≤ density_at d ∧ density_at d ≤ 91/50 := by
  have h0 : (11 : ℚ)/10 ≤ density_at 0 := by norm_num [density_at]
  have h29 : density_at 29 ≤ 91/50 := by norm_num [density_at]
  exact ⟨density_at_mono (Nat.le_succ d),
    le_trans h0 (density_at_mono (Nat.zero_le d)),
    le_trans (density_at_mono hd) h29⟩

/-- Witness for C8 at depth 0. -/
theorem density_monotone_bounded_witness :
    0 ≤ 29 ∧ 11/10 ≤ density_at 0 :=
  ⟨Nat.zero_le 29, (density_monotone_bounded 0 (Nat.zero_le 29)).2.1⟩

/-- C9: an unrecognized scenario name makes the program terminate with the
diagnostic `"Bad scenario!"` and exit status 1 — a non-zero status — before
any simulation runs, so no output image is produced. -/
theorem bad_scenario_fatal (σ : ℚ) (sc : String)
    (h1 : sc ≠ "Moon_Buggy") (h2 : sc ≠ "PP&L") :
    runProgram σ sc = Except.error ⟨"Bad scenario!", 1⟩ ∧
    (FatalExit.mk "Bad scenario!" 1).exitCode ≠ 0 := by
  refine ⟨?_, by norm_num⟩
  unfold runProgram selectScenario
  rw [if_neg h1, if_neg h2]

/-- Witness for C9 at the concrete scenario name `"Moon_Rover"`. -/
theorem bad_scenario_fatal_witness :
    "Moon_Rover" ≠ "Moon_Buggy" ∧ "Moon_Rover" ≠ "PP&L" ∧
    runProgram 0 "Moon_Rover" = Except.error ⟨"Bad scenario!", 1⟩ := by
  have h1 : "Moon_Rover" ≠ "Moon_Buggy" := by decide
  have h2 : "Moon_Rover" ≠ "PP&L" := by decide
  exact ⟨h1, h2, (bad_scenario_fatal 0 "Moon_Rover" h1 h2).1⟩

/-! ### Pressure bookkeeping: the recorded pressures, min and max -/

lemma collapseState_max (fm : ForceModel) (dens : ℕ → ℚ) (depth : ℕ)
    (s : SimState) :
    (collapseState fm dens depth s).max_pressure
      = if downwardForceOf fm s > s.max_pressure then downwardForceOf fm s
        else s.max_pressure := rfl

lemma collapseState_min (fm : ForceModel) (dens : ℕ → ℚ) (depth : ℕ)
    (s : SimState) :
    (collapseState fm dens depth s).min_pressure
      = if downwardForceOf fm s < s.min_pressure then downwardForceOf fm s
        else s.min_pressure := rfl

/-- The final `max_pressure` is the fold of the pressure update of lines
164-165 over the recorded pressures. -/
lemma loopAux_max_pressure (fm : ForceModel) (bc dens : ℕ → ℚ) :
    ∀ (n depth : ℕ) (s : SimState),
      (loopAux fm bc dens n depth s).max_pressure
        = (pressureTrace fm bc n depth s.support_footprint_edge).foldl
            (fun a p => if p > a then p else a) s.max_pressure := by
  intro n
  induction n with
  | zero => intro depth s; rfl
  | succ n ih =>
    intro depth s
    by_cases h : bc depth ≥ downwardForceOf fm s
    · rw [loopAux_succ_of_supported fm bc dens n depth s h]
      have h' : bc depth ≥ fm.forcePerWheel / s.support_footprint_edge ^ 2 := h
      simp only [pressureTrace, if_pos h']
      rfl
    · rw [loopAux_succ_of_collapsed fm bc dens n depth s h]
      have h' : ¬ bc depth ≥ fm.forcePerWheel / s.support_footprint_edge ^ 2 := h
      simp only [pressureTrace, if_neg h']
      rw [List.foldl_cons, ih (depth + 1) (collapseState fm dens depth s),
        collapseState_edge, collapseState_max]
      rfl

/-- The final `min_pressure` is the fold of the pressure update of lines
166-167 over the recorded pressures. -/
lemma loopAux_min_pressure (fm : ForceModel) (bc dens : ℕ → ℚ) :
    ∀ (n depth : ℕ) (s : SimState),
      (loopAux fm bc dens n depth s).min_pressure
        = (pressureTrace fm bc n depth s.support_footprint_edge).foldl
            (fun a p => if p < a then p else a) s.min_pressure := by
  intro n
  induction n with
  | zero => intro depth s; rfl
  | succ n ih =>
    intro depth s
    by_cases h : bc depth ≥ downwardForceOf fm s
    · rw [loopAux_succ_of_supported fm bc dens n depth s h]
      have h' : bc depth ≥ fm.forcePerWheel / s.support_footprint_edge ^ 2 := h
      simp only [pressureTrace, if_pos h']
      rfl
    · rw [loopAux_succ_of_collapsed fm bc dens n depth s h]
      have h' : ¬ bc depth ≥ fm.forcePerWheel / s.support_footprint_edge ^ 2 := h
      simp only [pressureTrace, if_neg h']
      rw [List.foldl_cons, ih (depth + 1) (collapseState fm dens depth s),
        collapseState_edge, collapseState_min]
      rfl

/-- A trace of length at least one starts with the pressure over the current
footprint. -/
lemma pressureTrace_succ (fm : ForceModel) (bc : ℕ → ℚ) (n depth : ℕ)
    (e : ℚ) :
    ∃ r, pressureTrace fm bc (n + 1) depth e
      = (fm.forcePerWheel / e ^ 2) :: r := by
  unfold pressureTrace
  split_ifs
  · exact ⟨[], rfl⟩
  · exact ⟨_, rfl⟩

/-- With positive force, spread and footprint, the recorded pressures are
strictly decreasing and all bounded by the first one. -/
lemma pressureTrace_bounds (fm : ForceModel) (bc : ℕ → ℚ)
    (hf : 0 < fm.forcePerWheel) (hσ : 0 < fm.spreadFactor) :
    ∀ (n depth : ℕ) (e : ℚ), 0 < e →
      List.Pairwise (fun a b => a > b) (pressureTrace fm bc n depth e) ∧
      ∀ p ∈ pressureTrace fm bc n depth e, p ≤ fm.forcePerWheel / e ^ 2 := by
  intro n
  induction n with
  | zero => intro depth e _; simp [pressureTrace]
  | succ n ih =>
    intro depth e he
    by_cases h : bc depth ≥ fm.forcePerWheel / e ^ 2
    · simp only [pressureTrace, if_pos h]
      simp
    · simp only [pressureTrace, if_neg h]
      have he' : (0 : ℚ) < e + 2 * fm.spreadFactor := by linarith
      have hlt : fm.forcePerWheel / (e + 2 * fm.spreadFactor) ^ 2
          < fm.forcePerWheel / e ^ 2 := by
        refine div_lt_div_of_pos_left hf (by positivity) ?_
        nlinarith
      obtain ⟨hpw, hbd⟩ := ih (depth + 1) (e + 2 * fm.spreadFactor) he'
      refine ⟨List.pairwise_cons.mpr ⟨?_, hpw⟩, ?_⟩
      · intro p hp
        exact lt_of_le_of_lt (hbd p hp) hlt
      · intro p hp
        rcases List.mem_cons.mp hp with hp | hp
        · rw [hp]
        · exact le_of_lt (lt_of_le_of_lt (hbd p hp) hlt)

/-- Invariant: starting from a state with positive footprint whose recorded
layer pressures are strictly decreasing and all above the current pressure,
the loop keeps the layer pressures strictly decreasing. -/
lemma loopAux_pressures_pairwise (fm : ForceModel) (bc dens : ℕ → ℚ)
    (hf : 0 < fm.forcePerWheel) (hσ : 0 < fm.spreadFactor) :
    ∀ (n depth : ℕ) (s : SimState), 0 < s.support_footprint_edge →
      List.Pairwise (fun a b => a > b)
        (s.compressed_layers.map fun l => l.appliedPressure) →
      (∀ p ∈ s.compressed_layers.map fun l => l.appliedPressure,
          fm.forcePerWheel / s.support_footprint_edge ^ 2 < p) →
      List.Pairwise (fun a b => a > b)
        ((loopAux fm bc dens n depth s).compressed_layers.map
          fun l => l.appliedPressure) := by
  intro n
  induction n with
  | zero => intro depth s _ hp _; exact hp
  | succ n ih =>
    intro depth s he hp hbd
    by_cases h : bc depth ≥ downwardForceOf fm s
    · rw [loopAux_succ_of_supported fm bc dens n depth s h,
        stopState_compressed_layers]
      exact hp
    · rw [loopAux_succ_of_collapsed fm bc dens n depth s h]
      have he' : (0 : ℚ) < s.support_footprint_edge + 2 * fm.spreadFactor := by
        linarith
      have hlt : fm.forcePerWheel
            / (s.support_footprint_edge + 2 * fm.spreadFactor) ^ 2
          < fm.forcePerWheel / s.support_footprint_edge ^ 2 := by
        refine div_lt_div_of_pos_left hf (by positivity) ?_
        nlinarith
      have hmap : (collapseState fm dens depth s).compressed_layers.map
            (fun l => l.appliedPressure)
          = (s.compressed_layers.map fun l => l.appliedPressure)
            ++ [downwardForceOf fm s] := by
        rw [collapseState_compressed_layers, List.map_append]
        rfl
      refine ih (depth + 1) (collapseState fm dens depth s) ?_ ?_ ?_
      · rw [collapseState_edge]; exact he'
      · rw [hmap, List.pairwise_append]
        refine ⟨hp, List.pairwise_singleton _ _, ?_⟩
        intro a ha b hb
        rw [List.mem_singleton] at hb
        rw [hb]
        exact hbd a ha
      · rw [hmap, collapseState_edge]
        intro p hp'
        rcases List.mem_append.mp hp' with hp' | hp'
        · exact lt_trans hlt (hbd p hp')
        · rw [List.mem_singleton] at hp'
          rw [hp']
          exact hlt

lemma if_gt_eq_max (a p : ℚ) : (if p > a then p else a) = max a p := by
  rw [max_def]
  split_ifs <;> linarith

lemma if_lt_eq_min (a p : ℚ) : (if p < a then p else a) = min a p := by
  rw [min_def]
  split_ifs <;> linarith

/-- Folding the max update over values that never exceed the accumulator
leaves the accumulator unchanged. -/
lemma foldl_max_of_le :
    ∀ (l : List ℚ) (m : ℚ), (∀ p ∈ l, p ≤ m) →
      l.foldl (fun a p => if p > a then p else a) m = m := by
  intro l
  induction l with
  | nil => intro m _; rfl
  | cons p t ih =>
    intro m hm
    rw [List.foldl_cons, if_neg (not_lt.mpr (hm p (List.mem_cons_self p t)))]
    exact ih m fun q hq => hm q (List.mem_cons_of_mem p hq)

/-- Folding the min update over a strictly decreasing list yields the minimum
of the accumulator and the last element. -/
lemma foldl_min_pairwise :
    ∀ (l : List ℚ), List.Pairwise (fun a b => a > b) l → ∀ m : ℚ,
      l.foldl (fun a p => if p < a then p else a) m
        = min m (l.getLast?.getD m) := by
  intro l
  induction l with
  | nil => intro _ m; simp
  | cons p t ih =>
    intro hpw m
    rw [List.foldl_cons, if_lt_eq_min]
    cases t with
    | nil => simp
    | cons q t' =>
      have hne : q :: t' ≠ [] := List.cons_ne_nil q t'
      have hlast : (q :: t').getLast? = some ((q :: t').getLast hne) :=
        List.getLast?_eq_getLast_of_ne_nil hne
      have hmem : (q :: t').getLast hne ∈ q :: t' := List.getLast_mem hne
      have hlt : (q :: t').getLast hne < p :=
        List.rel_of_pairwise_cons hpw hmem
      rw [ih (List.Pairwise.of_cons hpw) (min m p), hlast]
      simp only [Option.getD_some, List.getLast?_cons_cons, hlast]
      rw [min_assoc, min_eq_right (le_of_lt hlt)]

/-- C10: with a positive wheel width and a positive spread factor, the applied
pressures of the compressed layers, in the order appended, are strictly
decreasing; moreover (for a positive wheel force and at least one depth) the
final `max_pressure` is the depth-0 pressure `forcePerWheel / width²` and the
final `min_pressure` is the last downward force computed before termination
(capped by the initial sentinel 10000). -/
theorem pressures_strictly_decreasing (fpw σ w : ℚ) (maxDepth : ℕ)
    (hw : 0 < w) (hσ : 0 < σ) :
    List.Pairwise (fun p q => p > q)
      ((runSim ⟨fpw, σ⟩ bearing_cap_at density_at maxDepth w).compressed_layers.map
        fun l => l.appliedPressure) ∧
    (0 < fpw → 1 ≤ maxDepth →
      (runSim ⟨fpw, σ⟩ bearing_cap_at density_at maxDepth w).max_pressure
          = fpw / w ^ 2 ∧
      (runSim ⟨fpw, σ⟩ bearing_cap_at density_at maxDepth w).min_pressure
          = min 10000
              ((pressureTrace ⟨fpw, σ⟩ bearing_cap_at maxDepth 0 w).getLast?.getD
                10000)) := by
  constructor
  · by_cases hf : 0 < fpw
    · exact loopAux_pressures_pairwise ⟨fpw, σ⟩ bearing_cap_at density_at hf hσ
        maxDepth 0 (initState w) hw (by simp [initState]) (by simp [initState])
    · cases maxDepth with
      | zero => simp [runSim, loopAux, initState]
      | succ m =>
        have hsupp : bearing_cap_at 0 ≥ downwardForceOf ⟨fpw, σ⟩ (initState w) := by
          have h1 : downwardForceOf ⟨fpw, σ⟩ (initState w) ≤ 0 :=
            div_nonpos_of_nonpos_of_nonneg (not_lt.mp hf) (sq_nonneg w)
          have h2 : (0 : ℚ) < bearing_cap_at 0 := by
            norm_num [bearing_cap_at, min_bearing_cap, bearing_per_cm]
          linarith
        rw [runSim, loopAux_succ_of_supported _ bearing_cap_at density_at m 0
          (initState w) hsupp, stopState_compressed_layers]
        simp [initState]
  · intro hf hmd
    obtain ⟨m, rfl⟩ : ∃ m, maxDepth = m + 1 :=
      ⟨maxDepth - 1, (Nat.succ_pred_eq_of_pos hmd).symm⟩
    obtain ⟨hpw, hbd⟩ := pressureTrace_bounds ⟨fpw, σ⟩ bearing_cap_at hf hσ
      (m + 1) 0 w hw
    obtain ⟨r, hr⟩ := pressureTrace_succ ⟨fpw, σ⟩ bearing_cap_at m 0 w
    constructor
    · rw [runSim, loopAux_max_pressure]
      have hinit : (initState w).support_footprint_edge = w := rfl
      rw [hinit]
      show (pressureTrace ⟨fpw, σ⟩ bearing_cap_at (m + 1) 0 w).foldl
          (fun a p => if p > a then p else a) (0 : ℚ) = fpw / w ^ 2
      rw [hr, List.foldl_cons,
        if_pos (show fpw / w ^ 2 > 0 by positivity)]
      refine foldl_max_of_le r (fpw / w ^ 2) ?_
      intro p hp
      refine hbd p ?_
      rw [hr]
      exact List.mem_cons_of_mem _ hp
    · rw [runSim, loopAux_min_pressure]
      have hinit : (initState w).support_footprint_edge = w := rfl
      rw [hinit]
      exact foldl_min_pairwise _ hpw 10000

/-- Witness for C10 on the PP&L run with spread factor `7/80`. -/
theorem pressures_strictly_decreasing_witness :
    (0 : ℚ) < 10 ∧ (0 : ℚ) < 7/80 ∧
    List.Pairwise (fun p q => p > q)
      ((runSim ⟨2400, 7/80⟩ bearing_cap_at density_at 30 10).compressed_layers.map
        fun l => l.appliedPressure) :=
  ⟨by norm_num, by norm_num,
    (pressures_strictly_decreasing 2400 (7/80) 10 30 (by norm_num)
      (by norm_num)).1⟩

end Regolith
